import Mathlib

/-!
Shallow embedding of rustdesk's `src/flutter.rs` (session multiplexing and
frame delivery) and `src/privacy_mode.rs` (exclusive-resource arbitration),
with theorems checking the natural-language specification against the code.

Rust `HashMap`s are modelled as association lists (`List (key × value)`)
whose keys are unique in every reachable state; `lookupA` / `insertA` /
`eraseA` mirror `get` / `insert` / `remove`.  Machine integers (`i32`
connection ids) are modelled as `Int`; pixel buffers as `List Nat`.
Side effects (`StreamSink::add`, the external texture write callback, calls
to `clear()` and to implementation creators) are made observable as values:
each modelled operation returns, besides the new state, the list of
emissions it performed.
-/

namespace Rustdesk

/-! ## Association-list helpers (model of `std::collections::HashMap`) -/

def lookupA {α β : Type} [DecidableEq α] (m : List (α × β)) (k : α) : Option β :=
  match m with
  | [] => none
  | (k', v) :: rest => if k' = k then some v else lookupA rest k

def insertA {α β : Type} [DecidableEq α] (m : List (α × β)) (k : α) (v : β) :
    List (α × β) :=
  match m with
  | [] => [(k, v)]
  | (k', v') :: rest => if k' = k then (k, v) :: rest else (k', v') :: insertA rest k v

def eraseA {α β : Type} [DecidableEq α] (m : List (α × β)) (k : α) : List (α × β) :=
  match m with
  | [] => []
  | (k', v') :: rest => if k' = k then rest else (k', v') :: eraseA rest k

def keysOf {α β : Type} (m : List (α × β)) : List α := m.map Prod.fst

/-! ## Owned-buffer frame delivery (`flutter.rs`, `not(feature = "flutter_texture_render")`)

`RgbaData` mirrors the struct of the same name; `on_rgba_soft` is the
buffer-handling core of `FlutterHandler::on_rgba` in owned-buffer mode
(lines 584-621): given the `display_rgbas` map, the display index and the
producer's incoming buffer `rgba.raw`, it returns the updated map together
with the buffer handed back to the producer by `std::mem::swap`.
`next_rgba` mirrors `FlutterHandler::next_rgba` (lines 810-816). -/

structure RgbaData where
  data : List Nat
  valid : Bool
  deriving DecidableEq, Repr

abbrev DisplayRgbas := List (Nat × RgbaData)

def on_rgba_soft (m : DisplayRgbas) (display : Nat) (raw : List Nat) :
    DisplayRgbas × List Nat :=
  match lookupA m display with
  | some rgba_data =>
    if rgba_data.valid then
      (m, raw)
    else
      (insertA m display { data := raw, valid := true }, rgba_data.data)
  | none =>
    (insertA m display { data := raw, valid := false }, [])

def next_rgba (m : DisplayRgbas) (display : Nat) : DisplayRgbas :=
  match lookupA m display with
  | some rgba_data => insertA m display { rgba_data with valid := false }
  | none => m

/-- Push a whole sequence of frames for one display, with no intervening
consumer `next_rgba` call. -/
def pushFrames (m : DisplayRgbas) (display : Nat) (frames : List (List Nat)) :
    DisplayRgbas :=
  match frames with
  | [] => m
  | f :: fs => pushFrames (on_rgba_soft m display f).1 display fs

/-! ## Exclusive-resource arbitration (`privacy_mode.rs`)

`PrivacyModeImpl` models the state every platform implementation of the
`PrivacyMode` trait carries: the owning connection id (`pre_conn_id`, an
`i32` with `0` = `INVALID_PRIVACY_MODE_CONN_ID` as the unowned sentinel) and
its implementation key.  `check_on_conn_id` and `check_off_conn_id` are the
trait's default methods (lines 66-88), translated verbatim.  The trait
methods `clear`, `turn_on_privacy`, `turn_off_privacy` and the registered
creators are implemented by platform modules that are not part of the two
source files; they are modelled from the spec below, and calls to `clear`
and to creators are recorded as `ArbiterEvent`s so the two-step
clear-then-construct discipline is observable. -/

def INVALID_PRIVACY_MODE_CONN_ID : Int := 0

def OCCUPIED : String := "Privacy occupied by another one"

def TURN_OFF_OTHER_ID : String :=
  "Failed to turn off privacy mode that belongs to someone else"

structure PrivacyModeImpl where
  pre_conn_id : Int
  impl_key : String
  deriving DecidableEq, Repr

inductive PrivacyModeState where
  | OffSucceeded
  | OffByPeer
  | OffUnknown
  deriving DecidableEq, Repr

inductive ArbiterEvent where
  | clearCalled (impl_key : String)
  | constructed (impl_key : String)
  deriving DecidableEq, Repr

def check_on_conn_id (pm : PrivacyModeImpl) (conn_id : Int) :
    Except String Bool :=
  if pm.pre_conn_id = conn_id then .ok true
  else if pm.pre_conn_id ≠ INVALID_PRIVACY_MODE_CONN_ID then .error OCCUPIED
  else .ok false

def check_off_conn_id (pm : PrivacyModeImpl) (conn_id : Int) :
    Except String Unit :=
  if pm.pre_conn_id ≠ INVALID_PRIVACY_MODE_CONN_ID ∧
      conn_id ≠ INVALID_PRIVACY_MODE_CONN_ID ∧
      pm.pre_conn_id ≠ conn_id then
    .error TURN_OFF_OTHER_ID
  else .ok ()

/-- Modelled from the spec: the platform `PrivacyMode` implementations'
`turn_on(owner_id)` capability is not in the two source files; per the spec
a successful acquire "transitions to OwnedBy", so it records the caller as
owner and reports success. -/
def PrivacyModeImpl.turn_on_privacy (pm : PrivacyModeImpl) (conn_id : Int) :
    Bool × PrivacyModeImpl :=
  (true, { pm with pre_conn_id := conn_id })

/-- Modelled from the spec: the platform implementations' `turn_off` is not
in the two source files; per the spec, release first performs the
`check_off_conn_id` owner check, is a no-op when unowned, and otherwise
transitions to Unowned (the release reason is recorded only for
observability and does not affect the state). -/
def PrivacyModeImpl.turn_off_privacy (pm : PrivacyModeImpl) (conn_id : Int)
    (_state : Option PrivacyModeState) : Except String Unit × PrivacyModeImpl :=
  match check_off_conn_id pm conn_id with
  | .error e => (.error e, pm)
  | .ok _ => (.ok (), { pm with pre_conn_id := INVALID_PRIVACY_MODE_CONN_ID })

/-- Modelled from the spec: a registered creator (`PRIVACY_MODE_CREATOR`
entry) constructs a fresh, initially unowned strategy instance carrying the
requested implementation key. -/
def creator (impl_key : String) : PrivacyModeImpl :=
  { pre_conn_id := INVALID_PRIVACY_MODE_CONN_ID, impl_key := impl_key }

/-- Environment of `privacy_mode.rs`: which implementation keys
`get_supported_privacy_mode_impl` reports, which keys have a registered
creator, the configured key (`get_option("privacy-mode-impl-key")`) and
`DEFAULT_PRIVACY_MODE_IMPL` — all platform-dependent constants. -/
structure PrivacyConfig where
  supported : List String
  creators : List String
  config_impl : String
  default_impl : String
  deriving DecidableEq, Repr

def get_supported_impl (cfg : PrivacyConfig) (impl_key : String) : String :=
  if cfg.supported.contains impl_key then impl_key
  else if cfg.supported.contains cfg.config_impl then cfg.config_impl
  else cfg.default_impl

/-- Helper for `turn_on_privacy`: the branch (lines 231-245 plus the final
`turn_on_privacy` call) taken when the resolved key differs from the current
implementation key — clear the old implementation (if any), construct the
requested one via its registered creator, then turn it on; an unregistered
key is reported as unsupported without touching the state. -/
def switch_and_turn_on (cfg : PrivacyConfig) (state : Option PrivacyModeImpl)
    (key : String) (conn_id : Int) :
    Option (Except String Bool) × Option PrivacyModeImpl × List ArbiterEvent :=
  if cfg.creators.contains key then
    let evs :=
      (match state with
       | some pm => [ArbiterEvent.clearCalled pm.impl_key]
       | none => []) ++ [ArbiterEvent.constructed key]
    let r := (creator key).turn_on_privacy conn_id
    (some (.ok r.1), some r.2, evs)
  else
    (some (.error ("Unsupported privacy mode: " ++ key)), state, [])

/-- Helper for `turn_on_privacy`: the final `turn_on_privacy` call on the
(unchanged) current implementation; `none` models the `?` early return on
`as_mut()`. -/
def turn_on_cur (state : Option PrivacyModeImpl) (conn_id : Int) :
    Option (Except String Bool) × Option PrivacyModeImpl × List ArbiterEvent :=
  match state with
  | some pm =>
    let r := pm.turn_on_privacy conn_id
    (some (.ok r.1), some r.2, [])
  | none => (none, none, [])

/-- Model of the free function `turn_on_privacy` (lines 205-249): the whole
body runs under the single `PRIVACY_MODE` lock; `state` is the content of
that lock, and the result carries the returned `Option<ResultType<bool>>`,
the new lock content and the observable clear/construct events. -/
def turn_on_privacy (cfg : PrivacyConfig) (state : Option PrivacyModeImpl)
    (impl_key : String) (conn_id : Int) :
    Option (Except String Bool) × Option PrivacyModeImpl × List ArbiterEvent :=
  let key := get_supported_impl cfg impl_key
  match state with
  | some pm =>
    match check_on_conn_id pm conn_id with
    | .error e => (some (.error e), some pm, [])
    | .ok true =>
      if pm.impl_key = key then (some (.ok true), some pm, [])
      else switch_and_turn_on cfg (some pm) key conn_id
    | .ok false =>
      if pm.impl_key ≠ key then switch_and_turn_on cfg (some pm) key conn_id
      else turn_on_cur (some pm) conn_id
  | none =>
    if "" ≠ key then switch_and_turn_on cfg none key conn_id
    else turn_on_cur none conn_id

/-- Model of the free function `turn_off_privacy` (lines 251-260): delegate
to the current implementation under the `PRIVACY_MODE` lock; `none` when no
implementation is installed. -/
def turn_off_privacy (state : Option PrivacyModeImpl) (conn_id : Int)
    (s : Option PrivacyModeState) :
    Option (Except String Unit × PrivacyModeImpl) :=
  state.map (fun pm => pm.turn_off_privacy conn_id s)

/-! ## Texture-render frame delivery (`flutter.rs`, feature `flutter_texture_render`)

`VideoRenderer` mirrors the struct of that name: the multi-display-addressing
flag, the `map_display_sessions` map (display index to
`DisplaySessionInfo`), and whether the external write callback
`FlutterRgbaRendererPluginOnRgba` was resolved at startup
(`has_on_rgba_func` stands for `on_rgba_func.is_some()`).  `on_rgba`
returns the list of external writes it performs (empty: the frame was
skipped); `set_size` and `register_texture` are translated verbatim. -/

structure ImageRgb where
  raw : List Nat
  w : Nat
  h : Nat
  stride : Nat
  deriving DecidableEq, Repr

structure DisplaySessionInfo where
  texture_rgba_ptr : Nat
  size : Nat × Nat
  deriving DecidableEq, Repr

structure VideoRenderer where
  is_support_multi_ui_session : Bool
  map_display_sessions : List (Nat × DisplaySessionInfo)
  has_on_rgba_func : Bool
  deriving DecidableEq, Repr

structure ExternalWrite where
  texture_rgba_ptr : Nat
  len : Nat
  w : Nat
  h : Nat
  stride : Nat
  deriving DecidableEq, Repr

def VideoRenderer.set_size (r : VideoRenderer) (display width height : Nat) :
    VideoRenderer :=
  match lookupA r.map_display_sessions display with
  | some info =>
    { r with map_display_sessions :=
        (insertA r.map_display_sessions display
          { info with size := (width, height) }) }
  | none =>
    { r with map_display_sessions :=
        (insertA r.map_display_sessions display
          { texture_rgba_ptr := 0, size := (width, height) }) }

def VideoRenderer.register_texture (r : VideoRenderer) (display ptr : Nat) :
    VideoRenderer :=
  if ptr = 0 then
    { r with map_display_sessions := eraseA r.map_display_sessions display }
  else
    match lookupA r.map_display_sessions display with
    | some info =>
      { r with map_display_sessions :=
          (insertA r.map_display_sessions display
            { info with texture_rgba_ptr := ptr }) }
    | none =>
      { r with map_display_sessions :=
          (insertA r.map_display_sessions display
            { texture_rgba_ptr := ptr, size := (0, 0) }) }

def VideoRenderer.on_rgba (r : VideoRenderer) (display : Nat) (rgba : ImageRgb) :
    List ExternalWrite :=
  let opt_info :=
    if !r.is_support_multi_ui_session then
      (r.map_display_sessions.head?).map Prod.snd
    else
      lookupA r.map_display_sessions display
  match opt_info with
  | none => []
  | some info =>
    if info.texture_rgba_ptr = 0 then []
    else if info.size.1 ≠ rgba.w ∨ info.size.2 ≠ rgba.h then []
    else if r.has_on_rgba_func then
      [{ texture_rgba_ptr := info.texture_rgba_ptr, len := rgba.raw.length,
         w := rgba.w, h := rgba.h, stride := rgba.stride }]
    else []

/-! ## Texture-mode session handlers and frame notification (`flutter.rs`)

`SessionHandler` mirrors the struct of that name in texture mode: the
optional Dart event sink, the `notify_rendered` one-shot flag and the
per-session `VideoRenderer`.  A `FlutterHandler`'s `session_handlers` map is
a `Handlers` association list.  Deliveries to sinks are modelled as
`Emission`s tagged with the ui session id and a sink identity, so that
"exactly one event reached this session's sink" is a statement about a
list.  `on_rgba_texture` is `FlutterHandler::on_rgba` under feature
`flutter_texture_render` (lines 623-644): a first pass pushes the frame to
every session's renderer and collects the sessions whose `notify_rendered`
is unset; a second pass sends `EventToUI::Rgba(display)` to each collected
session that has a sink and sets its flag. -/

inductive EventToUI where
  | Rgba (display : Nat)
  | Event (s : String)
  deriving DecidableEq, Repr

abbrev SID := Nat

structure SessionHandler where
  event_stream : Option Nat
  notify_rendered : Bool
  renderer : VideoRenderer
  deriving DecidableEq, Repr

abbrev Handlers := List (SID × SessionHandler)

abbrev Emission := SID × Nat × EventToUI

/-- Second pass of `on_rgba` (lines 633-643): walk the collected session
ids; for each one still present and carrying a sink, emit
`EventToUI::Rgba(display)` to that sink and set `notify_rendered`. -/
def notifyPhase (display : Nat) : Handlers → List SID → Handlers × List Emission
  | hs, [] => (hs, [])
  | hs, id :: rest =>
    match lookupA hs id with
    | some s =>
      match s.event_stream with
      | some k =>
        let hs' := insertA hs id { s with notify_rendered := true }
        let r := notifyPhase display hs' rest
        (r.1, (id, k, EventToUI.Rgba display) :: r.2)
      | none => notifyPhase display hs rest
    | none => notifyPhase display hs rest

def on_rgba_texture (hs : Handlers) (display : Nat) (rgba : ImageRgb) :
    Handlers × List Emission × List ExternalWrite :=
  let writes := (hs.map (fun p => p.2.renderer.on_rgba display rgba)).flatten
  let try_notify := (hs.filter (fun p => !p.2.notify_rendered)).map Prod.fst
  let r := notifyPhase display hs try_notify
  (r.1, r.2, writes)

/-- Deliver a sequence of frames for one display, concatenating the sink
emissions in call order. -/
def deliverFrames (display : Nat) : Handlers → List ImageRgb → Handlers × List Emission
  | hs, [] => (hs, [])
  | hs, f :: fs =>
    let r := on_rgba_texture hs display f
    let r2 := deliverFrames display r.1 fs
    (r2.1, r.2.1 ++ r2.2)

/-- Emissions addressed to one ui session's sink. -/
def evsTo (sid : SID) (evs : List Emission) : List Emission :=
  evs.filter (fun e => e.1 = sid)

/-- `session_set_size` (lines 1209-1225), restricted to the one
`FlutterHandler` whose map contains the ui session: clear `notify_rendered`
and forward to `VideoRenderer::set_size`. -/
def session_set_size (hs : Handlers) (sid : SID) (display width height : Nat) :
    Handlers :=
  match lookupA hs sid with
  | some s =>
    insertA hs sid
      { s with notify_rendered := false,
               renderer := s.renderer.set_size display width height }
  | none => hs

/-- `session_register_texture` (lines 1228-1242): forward to
`VideoRenderer::register_texture`; the `notify_rendered` flag is left
untouched (the handler map is only read). -/
def session_register_texture (hs : Handlers) (sid : SID) (display ptr : Nat) :
    Handlers :=
  match lookupA hs sid with
  | some s =>
    insertA hs sid
      { s with renderer := s.renderer.register_texture display ptr }
  | none => hs

/-! ## Session registry (`flutter.rs`, `mod sessions`)

`SESSIONS` maps `(peer_id, conn_type)` to a `FlutterSession`; a
`FlutterSession`'s ui handler owns the `session_handlers` map.  The peer id
(`Session::get_id()`) is carried as a field.  `session_start_`
(lines 896-944) walks the sessions for the one containing the ui session
id, sends a terminal close event to the old sink, installs the new one, and
only then re-resolves the session to decide success; spawning the transport
loop (`io_loop`) is a side effect outside the registry state and is
omitted. -/

inductive ConnType where
  | DEFAULT_CONN
  | FILE_TRANSFER
  | PORT_FORWARD
  | RDP
  deriving DecidableEq, Repr

structure FlutterSession where
  id : String
  session_handlers : Handlers
  deriving DecidableEq, Repr

abbrev Registry := List ((String × ConnType) × FlutterSession)

/-- `try_send_close_event` (lines 946-951); the emission is tagged with the
ui session whose old sink receives it. -/
def try_send_close_event (sid : SID) (event_stream : Option Nat) :
    List Emission :=
  match event_stream with
  | some k => [(sid, k, EventToUI.Event "close")]
  | none => []

/-- First loop of `session_start_` (lines 906-914): find the first session
whose handler map contains `sid`, close its old stream and install the new
sink. -/
def startIn (sid : SID) (sink : Nat) :
    Registry → Option (Registry × List Emission)
  | [] => none
  | (key, s) :: rest =>
    match lookupA s.session_handlers sid with
    | some h =>
      some ((key,
          { s with session_handlers :=
              (insertA s.session_handlers sid
                { h with event_stream := some sink }) }) :: rest,
        try_send_close_event sid h.event_stream)
    | none =>
      match startIn sid sink rest with
      | some (rest', evs) => some ((key, s) :: rest', evs)
      | none => none

/-- The handler of the first session containing `sid` (the view
`get_session_by_session_id` resolves through). -/
def findHandler : Registry → SID → Option SessionHandler
  | [], _ => none
  | (_, s) :: rest, sid =>
    match lookupA s.session_handlers sid with
    | some h => some h
    | none => findHandler rest sid

def session_start_ (reg : Registry) (sid : SID) (id : String) (sink : Nat) :
    Except String (Registry × List Emission) :=
  match startIn sid sink reg with
  | some (reg', evs) =>
    if reg'.any (fun p => (lookupA p.2.session_handlers sid).isSome) then
      Except.ok (reg', evs)
    else
      Except.error ("No session with peer id " ++ id)
  | none =>
    Except.error
      ("No session with peer id " ++ id ++ ", session id: " ++ toString sid)

/-! ## Registry membership operations (`mod sessions`, C6)

`insert_session` (lines 1545-1557) keys the registry entry by
`(session.get_id(), conn_type)` and always inserts a fresh default
`SessionHandler` for the ui session id; `insert_peer_session_id`
(lines 1560-1586) only adds a handler when the peer entry already exists
(the handler's renderer multi-ui flag is copied from the peer info; whether
the write callback resolved at startup is irrelevant to membership);
`remove_session_by_session_id` (lines 1449-1476) removes the handler from
the first session containing it and drops the whole registry entry when its
handler map became empty (the capture-displays side command sent otherwise
does not change the registry). -/

def SessionHandler.default : SessionHandler :=
  ⟨none, false, ⟨false, [], false⟩⟩

def insert_session (reg : Registry) (session_id : SID) (conn_type : ConnType)
    (session : FlutterSession) : Registry :=
  match lookupA reg (session.id, conn_type) with
  | some s =>
    insertA reg (session.id, conn_type)
      ({ s with session_handlers :=
          (insertA s.session_handlers session_id SessionHandler.default) })
  | none =>
    insertA reg (session.id, conn_type)
      ({ session with session_handlers :=
          (insertA session.session_handlers session_id SessionHandler.default) })

def insert_peer_session_id (reg : Registry) (peer_id : String)
    (conn_type : ConnType) (session_id : SID) (multi : Bool) :
    Registry × Bool :=
  match lookupA reg (peer_id, conn_type) with
  | some s =>
    (insertA reg (peer_id, conn_type)
      ({ s with session_handlers :=
          (insertA s.session_handlers session_id
            ⟨none, false, ⟨multi, [], false⟩⟩) }), true)
  | none => (reg, false)

/-- First loop of `remove_session_by_session_id`: remove the handler from
the first session containing it, remembering the registry key when the
session's handler map became empty. -/
def removeFirst (sid : SID) :
    Registry → Registry × Option (String × ConnType)
  | [] => ([], none)
  | (key, s) :: rest =>
    match lookupA s.session_handlers sid with
    | some _ =>
      let h' := eraseA s.session_handlers sid
      ((key, { s with session_handlers := h' }) :: rest,
        if h'.isEmpty then some key else none)
    | none =>
      let r := removeFirst sid rest
      ((key, s) :: r.1, r.2)

def remove_session_by_session_id (reg : Registry) (sid : SID) : Registry :=
  let r := removeFirst sid reg
  match r.2 with
  | some key => eraseA r.1 key
  | none => r.1

/-- One registry operation of the kind claim C6 quantifies over. -/
inductive RegOp where
  | insert (session_id : SID) (conn_type : ConnType) (session : FlutterSession)
  | insertPeer (peer_id : String) (conn_type : ConnType) (session_id : SID)
      (multi : Bool)
  | removeBySid (session_id : SID)

def applyOp (reg : Registry) : RegOp → Registry
  | .insert sid ct s => insert_session reg sid ct s
  | .insertPeer pid ct sid multi => (insert_peer_session_id reg pid ct sid multi).1
  | .removeBySid sid => remove_session_by_session_id reg sid

def applyOps (reg : Registry) (ops : List RegOp) : Registry :=
  ops.foldl applyOp reg

/-- The registry invariant of claim C6: unique keys and no entry with an
empty handler map. -/
def RegInv (reg : Registry) : Prop :=
  (keysOf reg).Nodup ∧ ∀ p ∈ reg, p.2.session_handlers ≠ []

/-! ## Event fan-out (`FlutterHandler::push_event`, lines 348-358)

The event fields are collected into a map (`event.iter().cloned().collect()`
— a later duplicate key wins), the event name is inserted under the key
`"name"` (overwriting any caller-supplied value; the `debug_assert!` guard
is compiled out in release builds), the map is serialized once to a single
flat JSON record, and the identical string is `add`ed to every session
handler whose `event_stream` is present.  Serialization order of a Rust
`HashMap` is unspecified; the model fixes the association-list order, which
is sound for the claims here because the string is produced once and shared
by all recipients. -/

def collectFields (event : List (String × String)) : List (String × String) :=
  event.foldl (fun m p => insertA m p.1 p.2) []

def jsonStr (s : String) : String := "\"" ++ s ++ "\""

def serializeFlat (m : List (String × String)) : String :=
  "\x7b" ++ String.intercalate ","
      (m.map (fun p => jsonStr p.1 ++ ":" ++ jsonStr p.2)) ++ "\x7d"

def push_event (hs : Handlers) (name : String)
    (event : List (String × String)) : List Emission :=
  let h := insertA (collectFields event) "name" name
  let out := serializeFlat h
  hs.filterMap (fun p =>
    match p.2.event_stream with
    | some k => some (p.1, k, EventToUI.Event out)
    | none => none)

/-! ## Theorems -/

@[simp] theorem lookupA_nil {α β : Type} [DecidableEq α] (k : α) :
    lookupA ([] : List (α × β)) k = none := rfl

@[simp] theorem lookupA_cons {α β : Type} [DecidableEq α] (a : α) (b : β)
    (rest : List (α × β)) (k : α) :
    lookupA ((a, b) :: rest) k = if a = k then some b else lookupA rest k := rfl

@[simp] theorem insertA_nil {α β : Type} [DecidableEq α] (k : α) (v : β) :
    insertA ([] : List (α × β)) k v = [(k, v)] := rfl

@[simp] theorem insertA_cons {α β : Type} [DecidableEq α] (a : α) (b : β)
    (rest : List (α × β)) (k : α) (v : β) :
    insertA ((a, b) :: rest) k v =
      if a = k then (k, v) :: rest else (a, b) :: insertA rest k v := rfl

@[simp] theorem eraseA_nil {α β : Type} [DecidableEq α] (k : α) :
    eraseA ([] : List (α × β)) k = [] := rfl

@[simp] theorem eraseA_cons {α β : Type} [DecidableEq α] (a : α) (b : β)
    (rest : List (α × β)) (k : α) :
    eraseA ((a, b) :: rest) k = if a = k then rest else (a, b) :: eraseA rest k := rfl

@[simp] theorem keysOf_nil {α β : Type} : keysOf ([] : List (α × β)) = [] := rfl

@[simp] theorem keysOf_cons {α β : Type} (a : α) (b : β) (rest : List (α × β)) :
    keysOf ((a, b) :: rest) = a :: keysOf rest := rfl

theorem lookupA_insertA_self {α β : Type} [DecidableEq α]
    (m : List (α × β)) (k : α) (v : β) : lookupA (insertA m k v) k = some v := by
  induction m with
  | nil => simp
  | cons p rest ih =>
    obtain ⟨a, b⟩ := p
    by_cases h : a = k
    · simp [h]
    · simp [h, ih]

theorem lookupA_insertA_ne {α β : Type} [DecidableEq α]
    (m : List (α × β)) (k k' : α) (v : β) (hne : k' ≠ k) :
    lookupA (insertA m k v) k' = lookupA m k' := by
  have hkk : k ≠ k' := fun h => hne h.symm
  induction m with
  | nil => simp [hkk]
  | cons p rest ih =>
    obtain ⟨a, b⟩ := p
    by_cases h : a = k
    · subst h
      simp [hkk]
    · by_cases h2 : a = k'
      · subst h2
        simp [h, hne]
      · simp [h, h2, ih]

theorem lookupA_mem {α β : Type} [DecidableEq α]
    (m : List (α × β)) (k : α) (v : β) (h : lookupA m k = some v) : (k, v) ∈ m := by
  induction m with
  | nil => simp at h
  | cons p rest ih =>
    obtain ⟨a, b⟩ := p
    by_cases hk : a = k
    · subst hk
      rw [lookupA_cons, if_pos rfl] at h
      injection h with h'
      subst h'
      exact List.mem_cons_self _ _
    · rw [lookupA_cons, if_neg hk] at h
      exact List.mem_cons_of_mem _ (ih h)

theorem lookupA_eq_none_iff {α β : Type} [DecidableEq α]
    (m : List (α × β)) (k : α) : lookupA m k = none ↔ k ∉ keysOf m := by
  induction m with
  | nil => simp
  | cons p rest ih =>
    obtain ⟨a, b⟩ := p
    by_cases hk : a = k
    · subst hk
      simp
    · rw [lookupA_cons, if_neg hk, keysOf_cons, ih]
      constructor
      · intro h hmem
        rcases List.mem_cons.mp hmem with h1 | h2
        · exact hk h1.symm
        · exact h h2
      · intro h h2
        exact h (List.mem_cons_of_mem _ h2)

theorem mem_lookupA_of_nodup {α β : Type} [DecidableEq α]
    (m : List (α × β)) (k : α) (v : β) (hnd : (keysOf m).Nodup)
    (hmem : (k, v) ∈ m) : lookupA m k = some v := by
  induction m with
  | nil => simp at hmem
  | cons p rest ih =>
    obtain ⟨a, b⟩ := p
    rw [keysOf_cons, List.nodup_cons] at hnd
    rcases List.mem_cons.mp hmem with heq | htail
    · injection heq with h1 h2
      subst h1
      subst h2
      simp
    · have hak : a ≠ k := by
        intro h
        subst h
        exact hnd.1 (List.mem_map.mpr ⟨(a, v), htail, rfl⟩)
      rw [lookupA_cons, if_neg hak]
      exact ih hnd.2 htail

theorem mem_insertA {α β : Type} [DecidableEq α]
    (m : List (α × β)) (k : α) (v : β) (p : α × β) (h : p ∈ insertA m k v) :
    p ∈ m ∨ p = (k, v) := by
  induction m with
  | nil =>
    simp only [insertA_nil, List.mem_singleton] at h
    exact Or.inr h
  | cons q rest ih =>
    obtain ⟨a, b⟩ := q
    by_cases hk : a = k
    · rw [insertA_cons, if_pos hk] at h
      rcases List.mem_cons.mp h with h1 | h2
      · exact Or.inr h1
      · exact Or.inl (List.mem_cons_of_mem _ h2)
    · rw [insertA_cons, if_neg hk] at h
      rcases List.mem_cons.mp h with h1 | h2
      · exact Or.inl (h1 ▸ List.mem_cons_self _ _)
      · rcases ih h2 with h3 | h3
        · exact Or.inl (List.mem_cons_of_mem _ h3)
        · exact Or.inr h3

theorem mem_keysOf_insertA {α β : Type} [DecidableEq α]
    (m : List (α × β)) (k : α) (v : β) (a : α) (h : a ∈ keysOf (insertA m k v)) :
    a ∈ keysOf m ∨ a = k := by
  rcases List.mem_map.mp h with ⟨p, hp, hpa⟩
  rcases mem_insertA m k v p hp with h1 | h1
  · exact Or.inl (hpa ▸ List.mem_map.mpr ⟨p, h1, rfl⟩)
  · subst h1
    exact Or.inr hpa.symm

theorem nodup_keysOf_insertA {α β : Type} [DecidableEq α]
    (m : List (α × β)) (k : α) (v : β) (hnd : (keysOf m).Nodup) :
    (keysOf (insertA m k v)).Nodup := by
  induction m with
  | nil => simp
  | cons p rest ih =>
    obtain ⟨a, b⟩ := p
    rw [keysOf_cons, List.nodup_cons] at hnd
    by_cases hk : a = k
    · subst hk
      rw [insertA_cons, if_pos rfl, keysOf_cons, List.nodup_cons]
      exact hnd
    · rw [insertA_cons, if_neg hk, keysOf_cons, List.nodup_cons]
      refine ⟨fun hmem => ?_, ih hnd.2⟩
      rcases mem_keysOf_insertA rest k v a hmem with h1 | h1
      · exact hnd.1 h1
      · exact hk h1

theorem mem_eraseA {α β : Type} [DecidableEq α]
    (m : List (α × β)) (k : α) (p : α × β) (h : p ∈ eraseA m k) : p ∈ m := by
  induction m with
  | nil => simp at h
  | cons q rest ih =>
    obtain ⟨a, b⟩ := q
    by_cases hk : a = k
    · rw [eraseA_cons, if_pos hk] at h
      exact List.mem_cons_of_mem _ h
    · rw [eraseA_cons, if_neg hk] at h
      rcases List.mem_cons.mp h with h1 | h1
      · exact h1 ▸ List.mem_cons_self _ _
      · exact List.mem_cons_of_mem _ (ih h1)

theorem lookupA_eraseA_self_of_nodup {α β : Type} [DecidableEq α]
    (m : List (α × β)) (k : α) (hnd : (keysOf m).Nodup) :
    lookupA (eraseA m k) k = none := by
  induction m with
  | nil => simp
  | cons p rest ih =>
    obtain ⟨a, b⟩ := p
    rw [keysOf_cons, List.nodup_cons] at hnd
    by_cases hk : a = k
    · subst hk
      rw [eraseA_cons, if_pos rfl, lookupA_eq_none_iff]
      exact hnd.1
    · rw [eraseA_cons, if_neg hk, lookupA_cons, if_neg hk]
      exact ih hnd.2

theorem insertA_ne_nil {α β : Type} [DecidableEq α]
    (m : List (α × β)) (k : α) (v : β) : insertA m k v ≠ [] := by
  cases m with
  | nil => simp
  | cons p rest =>
    obtain ⟨a, b⟩ := p
    by_cases hk : a = k <;> simp [hk]

theorem pushFrames_valid_stable (m : DisplayRgbas) (d : Nat) (b : List Nat)
    (fs : List (List Nat)) (h : lookupA m d = some ⟨b, true⟩) :
    pushFrames m d fs = m := by
  induction fs with
  | nil => rfl
  | cons f fs ih =>
    have hstep : on_rgba_soft m d f = (m, f) := by
      rw [on_rgba_soft, h]
      rfl
    rw [pushFrames, hstep, ih]

theorem pushFrames_invalid_first (m : DisplayRgbas) (d : Nat) (b : List Nat)
    (f : List Nat) (fs : List (List Nat)) (h : lookupA m d = some ⟨b, false⟩) :
    pushFrames m d (f :: fs) = insertA m d ⟨f, true⟩ ∧
      lookupA (pushFrames m d (f :: fs)) d = some ⟨f, true⟩ := by
  have hstep : on_rgba_soft m d f = (insertA m d ⟨f, true⟩, b) := by
    rw [on_rgba_soft, h]
    rfl
  have hlook : lookupA (insertA m d (⟨f, true⟩ : RgbaData)) d = some ⟨f, true⟩ :=
    lookupA_insertA_self m d _
  rw [pushFrames, hstep]
  exact ⟨pushFrames_valid_stable _ d f fs hlook,
    by rw [pushFrames_valid_stable _ d f fs hlook]; exact hlook⟩

/-- Claim C1, counterexample.  For a display that has no slot yet, the code
inserts the first frame with `valid = false` (`RgbaData::default()` in the
`else` branch of `on_rgba`), so the second incoming frame — not the first —
is swapped in and becomes the retained valid frame.  Concretely: pushing
frame `[1]` and then frame `[2]` on a fresh display leaves the slot holding
`[2]`, not `[1]` as the claim states. -/
theorem c1_counterexample :
    lookupA (pushFrames ([] : DisplayRgbas) 0 [[1], [2]]) 0
        = some ⟨[2], true⟩ ∧
      lookupA (pushFrames ([] : DisplayRgbas) 0 [[1], [2]]) 0
        ≠ some ⟨[1], true⟩ := by
  constructor
  · rfl
  · decide

/-- Claim C1, amended.  In owned-buffer mode, for a slot that already exists:
if it is invalid, the first of `N ≥ 1` frames pushed without an intervening
`next_rgba` is retained (swapped in and marked valid) and the remaining
`N − 1` frames are dropped, leaving the whole map unchanged after the first
push; after one `next_rgba` on a valid slot the next pushed frame is
retained.  For a display with no slot yet, the first frame ever seen creates
the slot but is stored invalid (unreadable by the consumer), and it is the
second frame that is retained as the valid pending frame; frames `3..N` are
dropped. -/
theorem c1_owned_slot_retention (m : DisplayRgbas) (d : Nat) (b : List Nat)
    (f f2 : List Nat) (fs : List (List Nat)) :
    (lookupA m d = some ⟨b, false⟩ →
      lookupA (pushFrames m d (f :: fs)) d = some ⟨f, true⟩ ∧
        pushFrames m d (f :: fs) = insertA m d ⟨f, true⟩) ∧
    (lookupA m d = none →
      lookupA (pushFrames m d [f]) d = some ⟨f, false⟩ ∧
        lookupA (pushFrames m d (f :: f2 :: fs)) d = some ⟨f2, true⟩) ∧
    (lookupA m d = some ⟨b, true⟩ →
      lookupA (pushFrames (next_rgba m d) d (f :: fs)) d = some ⟨f, true⟩) := by
  refine ⟨fun h => ?_, fun h => ?_, fun h => ?_⟩
  · have := pushFrames_invalid_first m d b f fs h
    exact ⟨this.2, this.1⟩
  · have hstep : on_rgba_soft m d f = (insertA m d ⟨f, false⟩, []) := by
      rw [on_rgba_soft, h]
    have hlook : lookupA (insertA m d (⟨f, false⟩ : RgbaData)) d = some ⟨f, false⟩ :=
      lookupA_insertA_self m d _
    constructor
    · rw [pushFrames, hstep]
      exact hlook
    · rw [pushFrames, hstep]
      exact (pushFrames_invalid_first _ d f f2 fs hlook).2
  · have hnext : next_rgba m d = insertA m d ⟨b, false⟩ := by
      rw [next_rgba, h]
    have hlook : lookupA (insertA m d (⟨b, false⟩ : RgbaData)) d = some ⟨b, false⟩ :=
      lookupA_insertA_self m d _
    rw [hnext]
    exact (pushFrames_invalid_first _ d b f fs hlook).2

/-- Claim C1, witness: the amended theorem applied at a concrete state, with
every hypothesis discharged on concrete inputs. -/
theorem c1_owned_slot_retention_witness :
    (lookupA (pushFrames [(0, ⟨[9], false⟩)] 0 [[1], [2], [3]]) 0
        = some ⟨[1], true⟩) ∧
    (lookupA (pushFrames ([] : DisplayRgbas) 0 [[1], [2], [3]]) 0
        = some ⟨[2], true⟩) ∧
    (lookupA (pushFrames (next_rgba [(0, ⟨[9], true⟩)] 0) 0 [[5]]) 0
        = some ⟨[5], true⟩) :=
  ⟨((c1_owned_slot_retention [(0, ⟨[9], false⟩)] 0 [9] [1] [2] [[2], [3]]).1
      (by decide)).1,
   ((c1_owned_slot_retention ([] : DisplayRgbas) 0 [] [1] [2] [[3]]).2.1
      (by decide)).2,
   ((c1_owned_slot_retention [(0, ⟨[9], true⟩)] 0 [9] [5] [] []).2.2
      (by decide))⟩

/-- Claim C3: if privacy mode is owned by connection `a` (`pre_conn_id = a`,
`a ≠ 0`) and a different connection `b` calls `turn_on_privacy`, the call
fails with the "Privacy occupied by another one" error and neither the
owner nor the active implementation changes, and no clear or construction
happens — for every requested implementation key and every environment. -/
theorem c3_occupied_rejects_other (cfg : PrivacyConfig) (pm : PrivacyModeImpl)
    (impl_key : String) (a b : Int) (howner : pm.pre_conn_id = a) (ha : a ≠ 0)
    (hab : b ≠ a) :
    turn_on_privacy cfg (some pm) impl_key b
      = (some (.error OCCUPIED), some pm, []) := by
  have hcheck : check_on_conn_id pm b = .error OCCUPIED := by
    rw [check_on_conn_id, howner, if_neg (fun h => hab h.symm),
      if_pos (show a ≠ INVALID_PRIVACY_MODE_CONN_ID from ha)]
  rw [turn_on_privacy, hcheck]

/-- Claim C3, witness. -/
theorem c3_occupied_rejects_other_witness :
    turn_on_privacy ⟨["m1"], ["m1"], "", ""⟩ (some ⟨2, "m1"⟩) "m1" 3
      = (some (.error OCCUPIED), some ⟨2, "m1"⟩, []) :=
  c3_occupied_rejects_other ⟨["m1"], ["m1"], "", ""⟩ ⟨2, "m1"⟩ "m1" 2 3
    rfl (by decide) (by decide)

/-- Claim C4: when the owner `a` of privacy mode calls `turn_on_privacy`
with a supported, creator-registered key `k2` different from the active one,
the old implementation is cleared exactly once and exactly one new instance
is constructed (in that order, under the one lock acquisition) and the owner
stays `a`; when the owner names the currently active key, the call returns
`Ok(true)` idempotently with no clear and no construction and an unchanged
state. -/
theorem c4_owner_switch_and_idempotent (cfg : PrivacyConfig)
    (pm : PrivacyModeImpl) (a : Int) (k2 : String)
    (howner : pm.pre_conn_id = a) :
    (cfg.supported.contains pm.impl_key = true →
      turn_on_privacy cfg (some pm) pm.impl_key a
        = (some (.ok true), some pm, [])) ∧
    (cfg.supported.contains k2 = true → cfg.creators.contains k2 = true →
      pm.impl_key ≠ k2 →
      turn_on_privacy cfg (some pm) k2 a
        = (some (.ok true), some ⟨a, k2⟩,
            [ArbiterEvent.clearCalled pm.impl_key,
             ArbiterEvent.constructed k2])) := by
  have hcheck : check_on_conn_id pm a = .ok true := by
    rw [check_on_conn_id, howner, if_pos rfl]
  constructor
  · intro hsup
    have hkey : get_supported_impl cfg pm.impl_key = pm.impl_key := by
      rw [get_supported_impl, if_pos hsup]
    rw [turn_on_privacy, hkey, hcheck, if_pos rfl]
  · intro hsup hcr hne
    have hkey : get_supported_impl cfg k2 = k2 := by
      rw [get_supported_impl, if_pos hsup]
    rw [turn_on_privacy, hkey, hcheck, if_neg hne, switch_and_turn_on,
      if_pos hcr]
    rfl

/-- Claim C4, witness: both conjuncts applied at a concrete owner and keys. -/
theorem c4_owner_switch_and_idempotent_witness :
    (turn_on_privacy ⟨["m1", "m2"], ["m1", "m2"], "", ""⟩ (some ⟨2, "m1"⟩)
        "m1" 2 = (some (.ok true), some ⟨2, "m1"⟩, [])) ∧
    (turn_on_privacy ⟨["m1", "m2"], ["m1", "m2"], "", ""⟩ (some ⟨2, "m1"⟩)
        "m2" 2 = (some (.ok true), some ⟨2, "m2"⟩,
          [ArbiterEvent.clearCalled "m1", ArbiterEvent.constructed "m2"])) :=
  ⟨(c4_owner_switch_and_idempotent ⟨["m1", "m2"], ["m1", "m2"], "", ""⟩
      ⟨2, "m1"⟩ 2 "m2" rfl).1 (by decide),
   (c4_owner_switch_and_idempotent ⟨["m1", "m2"], ["m1", "m2"], "", ""⟩
      ⟨2, "m1"⟩ 2 "m2" rfl).2 (by decide) (by decide) (by decide)⟩

/-- Claim C8: release of the exclusive resource.  If unowned
(`pre_conn_id = 0`) the owner check passes and release is a no-op; if owned
by a different, non-sentinel connection the check (and hence release) fails
with the "Failed to turn off privacy mode that belongs to someone else"
error, leaving the state unchanged; a sentinel caller (`conn_id = 0`) or the
owner itself always passes the check. -/
theorem c8_release_owner_check (pm : PrivacyModeImpl) (c : Int)
    (st : Option PrivacyModeState) :
    (pm.pre_conn_id = 0 →
      check_off_conn_id pm c = .ok () ∧
        turn_off_privacy (some pm) c st = some (.ok (), pm)) ∧
    (pm.pre_conn_id ≠ 0 → c ≠ 0 → pm.pre_conn_id ≠ c →
      turn_off_privacy (some pm) c st
        = some (.error TURN_OFF_OTHER_ID, pm)) ∧
    ((c = 0 ∨ c = pm.pre_conn_id) → check_off_conn_id pm c = .ok ()) := by
  refine ⟨fun h0 => ?_, fun h1 h2 h3 => ?_, fun h4 => ?_⟩
  · have hc : check_off_conn_id pm c = .ok () := by
      rw [check_off_conn_id, if_neg]
      intro hcontra
      exact hcontra.1 h0
    refine ⟨hc, ?_⟩
    rw [turn_off_privacy, Option.map_some', PrivacyModeImpl.turn_off_privacy, hc]
    have : { pm with pre_conn_id := INVALID_PRIVACY_MODE_CONN_ID } = pm := by
      cases pm
      simp_all [INVALID_PRIVACY_MODE_CONN_ID]
    rw [this]
  · have hc : check_off_conn_id pm c = .error TURN_OFF_OTHER_ID := by
      rw [check_off_conn_id, if_pos ⟨h1, h2, h3⟩]
    rw [turn_off_privacy, Option.map_some', PrivacyModeImpl.turn_off_privacy, hc]
  · rw [check_off_conn_id, if_neg]
    rcases h4 with h | h
    · intro hcontra
      exact hcontra.2.1 h
    · intro hcontra
      exact hcontra.2.2 h.symm

/-- Claim C8, witness: all three conjuncts at concrete states. -/
theorem c8_release_owner_check_witness :
    (turn_off_privacy (some ⟨0, "m1"⟩) 5 none = some (.ok (), ⟨0, "m1"⟩)) ∧
    (turn_off_privacy (some ⟨2, "m1"⟩) 3 none
      = some (.error TURN_OFF_OTHER_ID, ⟨2, "m1"⟩)) ∧
    (check_off_conn_id ⟨2, "m1"⟩ 0 = .ok ()) ∧
    (check_off_conn_id ⟨2, "m1"⟩ 2 = .ok ()) :=
  ⟨((c8_release_owner_check ⟨0, "m1"⟩ 5 none).1 rfl).2,
   (c8_release_owner_check ⟨2, "m1"⟩ 3 none).2.1 (by decide) (by decide)
     (by decide),
   (c8_release_owner_check ⟨2, "m1"⟩ 0 none).2.2 (Or.inl rfl),
   (c8_release_owner_check ⟨2, "m1"⟩ 2 none).2.2 (Or.inr rfl)⟩

theorem set_size_flag (r : VideoRenderer) (d w h : Nat) :
    (r.set_size d w h).is_support_multi_ui_session
      = r.is_support_multi_ui_session := by
  rw [VideoRenderer.set_size]
  cases lookupA r.map_display_sessions d <;> rfl

theorem set_size_func (r : VideoRenderer) (d w h : Nat) :
    (r.set_size d w h).has_on_rgba_func = r.has_on_rgba_func := by
  rw [VideoRenderer.set_size]
  cases lookupA r.map_display_sessions d <;> rfl

theorem register_texture_flag (r : VideoRenderer) (d p : Nat) :
    (r.register_texture d p).is_support_multi_ui_session
      = r.is_support_multi_ui_session := by
  rw [VideoRenderer.register_texture]
  by_cases hp : p = 0
  · rw [if_pos hp]
  · rw [if_neg hp]
    cases lookupA r.map_display_sessions d <;> rfl

theorem register_texture_func (r : VideoRenderer) (d p : Nat) :
    (r.register_texture d p).has_on_rgba_func = r.has_on_rgba_func := by
  rw [VideoRenderer.register_texture]
  by_cases hp : p = 0
  · rw [if_pos hp]
  · rw [if_neg hp]
    cases lookupA r.map_display_sessions d <;> rfl

theorem set_size_lookup_ptr (r : VideoRenderer) (d w h q : Nat) (sz : Nat × Nat)
    (hq : lookupA r.map_display_sessions d = some ⟨q, sz⟩) :
    lookupA ((r.set_size d w h).map_display_sessions) d = some ⟨q, (w, h)⟩ := by
  rw [VideoRenderer.set_size, hq]
  exact lookupA_insertA_self _ _ _

theorem register_texture_lookup_nonzero (r : VideoRenderer) (d p : Nat)
    (hp : p ≠ 0) :
    ∃ sz, lookupA ((r.register_texture d p).map_display_sessions) d
      = some ⟨p, sz⟩ := by
  rw [VideoRenderer.register_texture, if_neg hp]
  cases hcase : lookupA r.map_display_sessions d with
  | none => exact ⟨(0, 0), lookupA_insertA_self _ _ _⟩
  | some info => exact ⟨info.size, lookupA_insertA_self _ _ _⟩

/-- Claim C7, counterexample.  The universal "never writes when no slot
exists for the addressed display" fails when
`is_support_multi_ui_session = false`: `on_rgba` then routes the frame to
whatever slot `values().next()` yields.  Concretely, with a single slot
registered under display 1 (pointer 5, size 4×4), a 4×4 frame addressed to
display 0 — a display with no slot — is still written externally. -/
theorem c7_counterexample :
    lookupA (VideoRenderer.mk false
        [(1, (⟨5, (4, 4)⟩ : DisplaySessionInfo))] true).map_display_sessions 0
        = none ∧
      (VideoRenderer.mk false
        [(1, (⟨5, (4, 4)⟩ : DisplaySessionInfo))] true).on_rgba 0 ⟨[], 4, 4, 16⟩
        ≠ [] := by
  constructor
  · rfl
  · decide

/-- Claim C7, amended.  In multi-display addressing mode
(`is_support_multi_ui_session = true`) `VideoRenderer::on_rgba` performs no
external write when the addressed display has no slot, when the slot's
registered texture pointer is zero, or when the slot's negotiated size
differs from the frame's; every such frame is skipped by returning without
any effect (in single-slot compatibility mode the frame is instead routed to
the first existing slot regardless of the addressed display).  Conversely,
after `register_texture` sets a non-zero pointer `p` and `set_size` sets
`(W, H)` for a display, a frame of exactly `(W, H)` addressed to that
display produces exactly one external write (given the startup-resolved
write callback). -/
theorem c7_texture_write_guard (r : VideoRenderer) (d : Nat) (rgba : ImageRgb)
    (p W H : Nat) :
    (r.is_support_multi_ui_session = true →
      (lookupA r.map_display_sessions d = none → r.on_rgba d rgba = []) ∧
      (∀ info, lookupA r.map_display_sessions d = some info →
        (info.texture_rgba_ptr = 0 → r.on_rgba d rgba = []) ∧
        ((info.size.1 ≠ rgba.w ∨ info.size.2 ≠ rgba.h) → r.on_rgba d rgba = []))) ∧
    (r.is_support_multi_ui_session = true → r.has_on_rgba_func = true →
      p ≠ 0 → rgba.w = W → rgba.h = H →
      ((r.register_texture d p).set_size d W H).on_rgba d rgba
        = [⟨p, rgba.raw.length, W, H, rgba.stride⟩]) := by
  constructor
  · intro hmulti
    constructor
    · intro hnone
      rw [VideoRenderer.on_rgba]
      simp [hmulti, hnone]
    · intro info hinfo
      constructor
      · intro hptr
        rw [VideoRenderer.on_rgba]
        simp [hmulti, hinfo, hptr]
      · intro hsize
        rw [VideoRenderer.on_rgba]
        by_cases hptr : info.texture_rgba_ptr = 0
        · simp [hmulti, hinfo, hptr]
        · simp [hmulti, hinfo, hptr, hsize]
  · intro hmulti hfunc hp hw hh
    subst hw
    subst hh
    obtain ⟨sz, hreg⟩ := register_texture_lookup_nonzero r d p hp
    have hlook :
        lookupA (((r.register_texture d p).set_size d rgba.w rgba.h).map_display_sessions) d
          = some ⟨p, (rgba.w, rgba.h)⟩ :=
      set_size_lookup_ptr _ d rgba.w rgba.h p sz hreg
    have hflag :
        ((r.register_texture d p).set_size d rgba.w rgba.h).is_support_multi_ui_session
          = true := by
      rw [set_size_flag, register_texture_flag]
      exact hmulti
    have hfunc2 :
        ((r.register_texture d p).set_size d rgba.w rgba.h).has_on_rgba_func = true := by
      rw [set_size_func, register_texture_func]
      exact hfunc
    rw [VideoRenderer.on_rgba]
    simp [hflag, hlook, hfunc2, hp]

/-- Claim C7, witness: the amended theorem applied at a concrete renderer —
a skipped mismatched frame, a skipped zero-pointer slot, a skipped missing
slot, and the exactly-one-write path after `register_texture` and
`set_size`. -/
theorem c7_texture_write_guard_witness :
    ((VideoRenderer.mk true [(0, (⟨5, (8, 8)⟩ : DisplaySessionInfo))] true).on_rgba
        0 ⟨[], 4, 4, 16⟩ = []) ∧
    ((VideoRenderer.mk true [(0, (⟨0, (4, 4)⟩ : DisplaySessionInfo))] true).on_rgba
        0 ⟨[], 4, 4, 16⟩ = []) ∧
    ((VideoRenderer.mk true [] true).on_rgba 0 ⟨[], 4, 4, 16⟩ = []) ∧
    ((((VideoRenderer.mk true [] true).register_texture 0 5).set_size 0 4 4).on_rgba
        0 ⟨[0, 1, 2], 4, 4, 16⟩ = [⟨5, 3, 4, 4, 16⟩]) :=
  ⟨(((c7_texture_write_guard (VideoRenderer.mk true [(0, ⟨5, (8, 8)⟩)] true)
        0 ⟨[], 4, 4, 16⟩ 5 4 4).1 rfl).2 ⟨5, (8, 8)⟩ rfl).2 (by decide),
   (((c7_texture_write_guard (VideoRenderer.mk true [(0, ⟨0, (4, 4)⟩)] true)
        0 ⟨[], 4, 4, 16⟩ 5 4 4).1 rfl).2 ⟨0, (4, 4)⟩ rfl).1 rfl,
   ((c7_texture_write_guard (VideoRenderer.mk true [] true)
        0 ⟨[], 4, 4, 16⟩ 5 4 4).1 rfl).1 rfl,
   (c7_texture_write_guard (VideoRenderer.mk true [] true)
        0 ⟨[0, 1, 2], 4, 4, 16⟩ 5 4 4).2 rfl rfl (by decide) rfl rfl⟩

/-- Claim C9: `register_texture(display, 0)` removes the display's entire
entry from the renderer map (so a lookup for it yields nothing, discarding
the previously negotiated size); a subsequent `register_texture(display, p)`
with `p ≠ 0` on a display with no entry creates the entry with texture
pointer `p` and size `(0, 0)`, after which (in multi-display addressing
mode) every incoming frame of nonzero dimensions for that display is
skipped by the size check — no external write — until `set_size` is called
again. -/
theorem c9_unregister_and_rearm (r : VideoRenderer) (d p : Nat)
    (rgba : ImageRgb) :
    ((keysOf r.map_display_sessions).Nodup →
      lookupA ((r.register_texture d 0).map_display_sessions) d = none) ∧
    (lookupA r.map_display_sessions d = none → p ≠ 0 →
      lookupA ((r.register_texture d p).map_display_sessions) d
          = some ⟨p, (0, 0)⟩ ∧
        (r.is_support_multi_ui_session = true → ¬(rgba.w = 0 ∧ rgba.h = 0) →
          (r.register_texture d p).on_rgba d rgba = [])) := by
  constructor
  · intro hnd
    rw [VideoRenderer.register_texture, if_pos rfl]
    exact lookupA_eraseA_self_of_nodup _ d hnd
  · intro hnone hp
    have hlook :
        lookupA ((r.register_texture d p).map_display_sessions) d
          = some ⟨p, (0, 0)⟩ := by
      rw [VideoRenderer.register_texture, if_neg hp, hnone]
      exact lookupA_insertA_self _ _ _
    refine ⟨hlook, fun hmulti hdim => ?_⟩
    have hflag : (r.register_texture d p).is_support_multi_ui_session = true := by
      rw [register_texture_flag]
      exact hmulti
    have hsz : (0 : Nat) ≠ rgba.w ∨ (0 : Nat) ≠ rgba.h := by
      by_cases hw : rgba.w = 0
      · by_cases hh : rgba.h = 0
        · exact absurd ⟨hw, hh⟩ hdim
        · exact Or.inr (fun h => hh h.symm)
      · exact Or.inl (fun h => hw h.symm)
    rw [VideoRenderer.on_rgba]
    simp only [hflag, Bool.not_true, Bool.false_eq_true, if_false, hlook]
    simp [hsz]

/-- Claim C9, witness: unregistering display 0 removes its entry; a fresh
registration gets size `(0, 0)` and a subsequent 4×4 frame is skipped. -/
theorem c9_unregister_and_rearm_witness :
    (lookupA (((VideoRenderer.mk true [(0, (⟨5, (4, 4)⟩ : DisplaySessionInfo))]
        true).register_texture 0 0).map_display_sessions) 0 = none) ∧
    (lookupA (((VideoRenderer.mk true [] true).register_texture 0
        7).map_display_sessions) 0 = some ⟨7, (0, 0)⟩) ∧
    (((VideoRenderer.mk true [] true).register_texture 0 7).on_rgba 0
        ⟨[], 4, 4, 16⟩ = []) :=
  ⟨(c9_unregister_and_rearm (VideoRenderer.mk true [(0, ⟨5, (4, 4)⟩)] true)
      0 7 ⟨[], 4, 4, 16⟩).1 (by decide),
   ((c9_unregister_and_rearm (VideoRenderer.mk true [] true)
      0 7 ⟨[], 4, 4, 16⟩).2 rfl (by decide)).1,
   ((c9_unregister_and_rearm (VideoRenderer.mk true [] true)
      0 7 ⟨[], 4, 4, 16⟩).2 rfl (by decide)).2 rfl (by decide)⟩

theorem keysOf_insertA_of_lookup {α β : Type} [DecidableEq α]
    (m : List (α × β)) (k : α) (v v' : β) (h : lookupA m k = some v) :
    keysOf (insertA m k v') = keysOf m := by
  induction m with
  | nil => simp at h
  | cons p rest ih =>
    obtain ⟨a, b⟩ := p
    by_cases hk : a = k
    · subst hk
      rw [insertA_cons, if_pos rfl, keysOf_cons, keysOf_cons]
    · rw [lookupA_cons, if_neg hk] at h
      rw [insertA_cons, if_neg hk, keysOf_cons, keysOf_cons, ih h]

@[simp] theorem evsTo_nil (sid : SID) : evsTo sid [] = [] := rfl

theorem evsTo_cons (sid : SID) (e : Emission) (evs : List Emission) :
    evsTo sid (e :: evs)
      = if e.1 = sid then e :: evsTo sid evs else evsTo sid evs := by
  rw [evsTo, List.filter_cons]
  by_cases h : e.1 = sid <;> simp [evsTo, h]

theorem evsTo_cons_ne (sid a : SID) (k : Nat) (ev : EventToUI)
    (evs : List Emission) (h : a ≠ sid) :
    evsTo sid ((a, k, ev) :: evs) = evsTo sid evs := by
  rw [evsTo_cons]
  exact if_neg h

theorem evsTo_append (sid : SID) (a b : List Emission) :
    evsTo sid (a ++ b) = evsTo sid a ++ evsTo sid b := by
  rw [evsTo, evsTo, evsTo, List.filter_append]

theorem notifyPhase_keys (display : Nat) (ids : List SID) :
    ∀ hs : Handlers, keysOf (notifyPhase display hs ids).1 = keysOf hs := by
  induction ids with
  | nil => intro hs; rfl
  | cons id rest ih =>
    intro hs
    cases hl : lookupA hs id with
    | none => simp [notifyPhase, hl, ih]
    | some s =>
      cases hstream : s.event_stream with
      | none => simp [notifyPhase, hl, hstream, ih]
      | some k =>
        simp only [notifyPhase, hl, hstream]
        rw [ih, keysOf_insertA_of_lookup _ _ s _ hl]

theorem notifyPhase_not_mem (display : Nat) (ids : List SID) :
    ∀ (hs : Handlers) (sid : SID), sid ∉ ids →
      lookupA (notifyPhase display hs ids).1 sid = lookupA hs sid ∧
        evsTo sid (notifyPhase display hs ids).2 = [] := by
  induction ids with
  | nil => intro hs sid _; exact ⟨rfl, rfl⟩
  | cons id rest ih =>
    intro hs sid hmem
    have hid : sid ≠ id := fun h => hmem (h ▸ List.mem_cons_self _ _)
    have hrest : sid ∉ rest := fun h => hmem (List.mem_cons_of_mem _ h)
    cases hl : lookupA hs id with
    | none => simpa [notifyPhase, hl] using ih hs sid hrest
    | some s =>
      obtain ⟨es, nr, rd⟩ := s
      cases es with
      | none => simpa [notifyPhase, hl] using ih hs sid hrest
      | some k =>
        have hrec := ih (insertA hs id ⟨some k, true, rd⟩) sid hrest
        simp only [notifyPhase, hl]
        refine ⟨?_, ?_⟩
        · rw [hrec.1, lookupA_insertA_ne _ _ _ _ hid]
        · rw [evsTo_cons_ne _ _ _ _ _ (fun h => hid h.symm), hrec.2]

theorem notifyPhase_once (display : Nat) (l1 : List SID) :
    ∀ (l2 : List SID) (hs : Handlers) (sid : SID) (nr : Bool)
      (rd : VideoRenderer) (k : Nat),
      sid ∉ l1 → sid ∉ l2 → lookupA hs sid = some ⟨some k, nr, rd⟩ →
      evsTo sid (notifyPhase display hs (l1 ++ sid :: l2)).2
          = [(sid, k, EventToUI.Rgba display)] ∧
        lookupA (notifyPhase display hs (l1 ++ sid :: l2)).1 sid
          = some ⟨some k, true, rd⟩ := by
  induction l1 with
  | nil =>
    intro l2 hs sid nr rd k _ h2 hlook
    simp only [List.nil_append, notifyPhase, hlook]
    have hni := notifyPhase_not_mem display l2
      (insertA hs sid ⟨some k, true, rd⟩) sid h2
    refine ⟨?_, ?_⟩
    · rw [evsTo_cons, if_pos rfl, hni.2]
    · rw [hni.1, lookupA_insertA_self]
  | cons id rest ih =>
    intro l2 hs sid nr rd k h1 h2 hlook
    have hid : sid ≠ id := fun h => h1 (h ▸ List.mem_cons_self _ _)
    have hrest : sid ∉ rest := fun h => h1 (List.mem_cons_of_mem _ h)
    rw [List.cons_append]
    cases hl : lookupA hs id with
    | none =>
      simpa [notifyPhase, hl] using ih l2 hs sid nr rd k hrest h2 hlook
    | some s0 =>
      obtain ⟨es0, nr0, rd0⟩ := s0
      cases es0 with
      | none =>
        simpa [notifyPhase, hl] using ih l2 hs sid nr rd k hrest h2 hlook
      | some k0 =>
        have hlook' :
            lookupA (insertA hs id ⟨some k0, true, rd0⟩) sid
              = some ⟨some k, nr, rd⟩ := by
          rw [lookupA_insertA_ne _ _ _ _ hid, hlook]
        have hrec := ih l2 (insertA hs id ⟨some k0, true, rd0⟩)
          sid nr rd k hrest h2 hlook'
        simp only [notifyPhase, hl]
        refine ⟨?_, hrec.2⟩
        rw [evsTo_cons_ne _ _ _ _ _ (fun h => hid h.symm), hrec.1]

theorem try_notify_nodup (hs : Handlers) (hnd : (keysOf hs).Nodup) :
    ((hs.filter (fun p => !p.2.notify_rendered)).map Prod.fst).Nodup := by
  have hsub : List.Sublist
      ((hs.filter (fun p => !p.2.notify_rendered)).map Prod.fst)
      (hs.map Prod.fst) := (List.filter_sublist hs).map Prod.fst
  exact hnd.sublist hsub

theorem try_notify_mem (hs : Handlers) (sid : SID) (s : SessionHandler)
    (hlook : lookupA hs sid = some s) (hnr : s.notify_rendered = false) :
    sid ∈ (hs.filter (fun p => !p.2.notify_rendered)).map Prod.fst := by
  refine List.mem_map.mpr ⟨(sid, s), ?_, rfl⟩
  refine List.mem_filter.mpr ⟨lookupA_mem _ _ _ hlook, ?_⟩
  simp [hnr]

theorem try_notify_not_mem (hs : Handlers) (sid : SID) (s : SessionHandler)
    (hnd : (keysOf hs).Nodup) (hlook : lookupA hs sid = some s)
    (hnr : s.notify_rendered = true) :
    sid ∉ (hs.filter (fun p => !p.2.notify_rendered)).map Prod.fst := by
  intro hmem
  rcases List.mem_map.mp hmem with ⟨p, hp, hpa⟩
  obtain ⟨a, s'⟩ := p
  rcases List.mem_filter.mp hp with ⟨hmem', hflag⟩
  subst hpa
  have := mem_lookupA_of_nodup hs a s' hnd hmem'
  rw [hlook] at this
  injection this with h
  subst h
  rw [hnr] at hflag
  simp at hflag

theorem nodup_mem_split (l : List Nat) (a : Nat) (hnd : l.Nodup) (hmem : a ∈ l) :
    ∃ l1 l2, l = l1 ++ a :: l2 ∧ a ∉ l1 ∧ a ∉ l2 := by
  induction l with
  | nil => simp at hmem
  | cons b rest ih =>
    rw [List.nodup_cons] at hnd
    by_cases hba : b = a
    · subst hba
      exact ⟨[], rest, rfl, by simp, hnd.1⟩
    · have hmem' : a ∈ rest := by
        rcases List.mem_cons.mp hmem with h | h
        · exact absurd h.symm hba
        · exact h
      obtain ⟨l1, l2, heq, h1, h2⟩ := ih hnd.2 hmem'
      exact ⟨b :: l1, l2, by rw [heq, List.cons_append],
        by
          intro h
          rcases List.mem_cons.mp h with h | h
          · exact hba h.symm
          · exact h1 h,
        h2⟩

theorem on_rgba_texture_fresh (hs : Handlers) (display : Nat) (f : ImageRgb)
    (sid : SID) (s : SessionHandler) (k : Nat)
    (hnd : (keysOf hs).Nodup) (hlook : lookupA hs sid = some s)
    (hstream : s.event_stream = some k) (hnr : s.notify_rendered = false) :
    evsTo sid (on_rgba_texture hs display f).2.1
        = [(sid, k, EventToUI.Rgba display)] ∧
      lookupA (on_rgba_texture hs display f).1 sid
        = some { s with notify_rendered := true } ∧
      (keysOf (on_rgba_texture hs display f).1).Nodup := by
  obtain ⟨es, nr, rd⟩ := s
  simp only [SessionHandler.event_stream] at hstream
  simp only [SessionHandler.notify_rendered] at hnr
  subst hstream
  subst hnr
  have hmem := try_notify_mem hs sid ⟨some k, false, rd⟩ hlook rfl
  have hnodup := try_notify_nodup hs hnd
  obtain ⟨l1, l2, heq, h1, h2⟩ := nodup_mem_split _ sid hnodup hmem
  have honce := notifyPhase_once display l1 l2 hs sid false rd k h1 h2 hlook
  have hkeys := notifyPhase_keys display
    ((hs.filter (fun p => !p.2.notify_rendered)).map Prod.fst) hs
  rw [on_rgba_texture]
  refine ⟨?_, ?_, ?_⟩
  · simpa [heq] using honce.1
  · simpa [heq] using honce.2
  · simpa [hkeys] using hnd

theorem on_rgba_texture_notified (hs : Handlers) (display : Nat) (f : ImageRgb)
    (sid : SID) (s : SessionHandler)
    (hnd : (keysOf hs).Nodup) (hlook : lookupA hs sid = some s)
    (hnr : s.notify_rendered = true) :
    evsTo sid (on_rgba_texture hs display f).2.1 = [] ∧
      lookupA (on_rgba_texture hs display f).1 sid = some s ∧
      (keysOf (on_rgba_texture hs display f).1).Nodup := by
  have hnm := try_notify_not_mem hs sid s hnd hlook hnr
  have hni := notifyPhase_not_mem display
    ((hs.filter (fun p => !p.2.notify_rendered)).map Prod.fst) hs sid hnm
  have hkeys := notifyPhase_keys display
    ((hs.filter (fun p => !p.2.notify_rendered)).map Prod.fst) hs
  rw [on_rgba_texture]
  refine ⟨hni.2, ?_, ?_⟩
  · rw [hni.1]
    exact hlook
  · simpa [hkeys] using hnd

theorem deliverFrames_notified (display : Nat) (fs : List ImageRgb) :
    ∀ (hs : Handlers) (sid : SID) (s : SessionHandler),
      (keysOf hs).Nodup → lookupA hs sid = some s → s.notify_rendered = true →
      evsTo sid (deliverFrames display hs fs).2 = [] ∧
        lookupA (deliverFrames display hs fs).1 sid = some s ∧
        (keysOf (deliverFrames display hs fs).1).Nodup := by
  induction fs with
  | nil => intro hs sid s hnd hlook _; exact ⟨rfl, hlook, hnd⟩
  | cons f fs ih =>
    intro hs sid s hnd hlook hnr
    have hstep := on_rgba_texture_notified hs display f sid s hnd hlook hnr
    have hrest := ih (on_rgba_texture hs display f).1 sid s hstep.2.2
      hstep.2.1 hnr
    rw [deliverFrames]
    refine ⟨?_, hrest.2.1, hrest.2.2⟩
    rw [evsTo_append, hstep.1, hrest.1]
    rfl

theorem deliverFrames_fresh (display : Nat) (f : ImageRgb) (fs : List ImageRgb)
    (hs : Handlers) (sid : SID) (s : SessionHandler) (k : Nat)
    (hnd : (keysOf hs).Nodup) (hlook : lookupA hs sid = some s)
    (hstream : s.event_stream = some k) (hnr : s.notify_rendered = false) :
    evsTo sid (deliverFrames display hs (f :: fs)).2
        = [(sid, k, EventToUI.Rgba display)] ∧
      lookupA (deliverFrames display hs (f :: fs)).1 sid
        = some { s with notify_rendered := true } ∧
      (keysOf (deliverFrames display hs (f :: fs)).1).Nodup := by
  have hstep := on_rgba_texture_fresh hs display f sid s k hnd hlook hstream hnr
  have hrest := deliverFrames_notified display fs (on_rgba_texture hs display f).1
    sid { s with notify_rendered := true } hstep.2.2 hstep.2.1 rfl
  rw [deliverFrames]
  refine ⟨?_, hrest.2.1, hrest.2.2⟩
  rw [evsTo_append, hstep.1, hrest.1]
  rfl

/-- Claim C2, counterexample.  The claim says a re-registration of the
render target (`register_texture`) clears the notified flag, after which
exactly one more frame-ready event is sent.  In the code only
`session_set_size` (and the waiting-dialog path) reset `notify_rendered`;
`session_register_texture` only touches the renderer map.  Concretely:
session 7 has a live sink 3 and a fresh flag; the first frame emits one
`Rgba` event; then the render target is re-registered with non-zero pointer
5; delivering the next frame emits zero further events to session 7 —
not the "exactly one more" the claim requires. -/
theorem c2_counterexample :
    evsTo 7 (on_rgba_texture
        [(7, ⟨some 3, false, VideoRenderer.mk true [] true⟩)] 0
        ⟨[], 4, 4, 16⟩).2.1 = [(7, 3, EventToUI.Rgba 0)] ∧
    (lookupA (session_register_texture
        (on_rgba_texture [(7, ⟨some 3, false, VideoRenderer.mk true [] true⟩)] 0
          ⟨[], 4, 4, 16⟩).1 7 0 5) 7).map SessionHandler.event_stream
      = some (some 3) ∧
    evsTo 7 (on_rgba_texture
        (session_register_texture
          (on_rgba_texture [(7, ⟨some 3, false, VideoRenderer.mk true [] true⟩)]
            0 ⟨[], 4, 4, 16⟩).1 7 0 5) 0 ⟨[], 4, 4, 16⟩).2.1 = [] := by
  decide

/-- Claim C2, amended.  In texture mode, for every UI session freshly
attached with a live event stream (flag unset, sink present), across any
`K ≥ 1` consecutive frames delivered via `on_rgba` exactly one
`EventToUI::Rgba` event is sent to that session's sink; a resize
(`session_set_size`) clears the notified flag, after which exactly one more
is sent across any further `K' ≥ 1` frames.  (Re-registering the render
target does not clear the flag and does not re-arm the notification.) -/
theorem c2_notify_once_until_resize (hs : Handlers) (sid : SID) (k : Nat)
    (s : SessionHandler) (d W H : Nat) (f g : ImageRgb)
    (fs gs : List ImageRgb)
    (hnd : (keysOf hs).Nodup) (hlook : lookupA hs sid = some s)
    (hstream : s.event_stream = some k) (hnr : s.notify_rendered = false) :
    evsTo sid (deliverFrames d hs (f :: fs)).2
        = [(sid, k, EventToUI.Rgba d)] ∧
      evsTo sid (deliverFrames d
          (session_set_size (deliverFrames d hs (f :: fs)).1 sid d W H)
          (g :: gs)).2
        = [(sid, k, EventToUI.Rgba d)] := by
  have h1 := deliverFrames_fresh d f fs hs sid s k hnd hlook hstream hnr
  refine ⟨h1.1, ?_⟩
  have hset :
      session_set_size (deliverFrames d hs (f :: fs)).1 sid d W H
        = insertA (deliverFrames d hs (f :: fs)).1 sid
            { { s with notify_rendered := true } with
                notify_rendered := false,
                renderer :=
                  ({ s with notify_rendered := true }).renderer.set_size d W H } := by
    rw [session_set_size, h1.2.1]
  have hlook2 :
      lookupA (session_set_size (deliverFrames d hs (f :: fs)).1 sid d W H) sid
        = some { s with notify_rendered := false,
                        renderer := s.renderer.set_size d W H } := by
    rw [hset, lookupA_insertA_self]
  have hnd2 :
      (keysOf (session_set_size (deliverFrames d hs (f :: fs)).1 sid d W H)).Nodup := by
    rw [hset]
    exact nodup_keysOf_insertA _ _ _ h1.2.2
  have h2 := deliverFrames_fresh d g gs
    (session_set_size (deliverFrames d hs (f :: fs)).1 sid d W H) sid
    { s with notify_rendered := false, renderer := s.renderer.set_size d W H }
    k hnd2 hlook2 hstream rfl
  exact h2.1

/-- Claim C2, witness: a two-session state (7 fresh with sink 3, 8 already
notified), three frames then a resize then two frames — exactly one event
to sink 3 in each phase. -/
theorem c2_notify_once_until_resize_witness :
    evsTo 7 (deliverFrames 0
        [(7, ⟨some 3, false, VideoRenderer.mk true [] true⟩),
         (8, ⟨some 4, true, VideoRenderer.mk true [] true⟩)]
        [⟨[], 4, 4, 16⟩, ⟨[], 4, 4, 16⟩, ⟨[], 4, 4, 16⟩]).2
      = [(7, 3, EventToUI.Rgba 0)] ∧
    evsTo 7 (deliverFrames 0
        (session_set_size (deliverFrames 0
          [(7, ⟨some 3, false, VideoRenderer.mk true [] true⟩),
           (8, ⟨some 4, true, VideoRenderer.mk true [] true⟩)]
          [⟨[], 4, 4, 16⟩, ⟨[], 4, 4, 16⟩, ⟨[], 4, 4, 16⟩]).1 7 0 8 8)
        [⟨[], 8, 8, 32⟩, ⟨[], 8, 8, 32⟩]).2
      = [(7, 3, EventToUI.Rgba 0)] :=
  c2_notify_once_until_resize
    [(7, ⟨some 3, false, VideoRenderer.mk true [] true⟩),
     (8, ⟨some 4, true, VideoRenderer.mk true [] true⟩)]
    7 3 ⟨some 3, false, VideoRenderer.mk true [] true⟩ 0 8 8
    ⟨[], 4, 4, 16⟩ ⟨[], 8, 8, 32⟩
    [⟨[], 4, 4, 16⟩, ⟨[], 4, 4, 16⟩] [⟨[], 8, 8, 32⟩]
    (by decide) (by decide) rfl rfl

theorem startIn_spec (sid : SID) (sink : Nat) :
    ∀ reg : Registry,
      (findHandler reg sid = none → startIn sid sink reg = none) ∧
      (∀ h, findHandler reg sid = some h →
        ∃ reg', startIn sid sink reg
            = some (reg', try_send_close_event sid h.event_stream) ∧
          findHandler reg' sid = some { h with event_stream := some sink } ∧
          reg'.any (fun p => (lookupA p.2.session_handlers sid).isSome) = true) := by
  intro reg
  induction reg with
  | nil =>
    refine ⟨fun _ => rfl, fun h hcontra => ?_⟩
    simp [findHandler] at hcontra
  | cons q rest ih =>
    obtain ⟨key, s⟩ := q
    cases hl : lookupA s.session_handlers sid with
    | some h0 =>
      constructor
      · intro hcontra
        rw [findHandler, hl] at hcontra
        exact absurd hcontra (by simp)
      · intro h hfind
        rw [findHandler, hl] at hfind
        injection hfind with hfind
        subst hfind
        refine ⟨(key,
            { s with session_handlers :=
                (insertA s.session_handlers sid
                  { h0 with event_stream := some sink }) }) :: rest, ?_, ?_, ?_⟩
        · rw [startIn, hl]
        · rw [findHandler]
          simp only [lookupA_insertA_self]
        · simp only [List.any_cons, Bool.or_eq_true]
          exact Or.inl (by simp [lookupA_insertA_self])
    | none =>
      constructor
      · intro hfind
        rw [findHandler, hl] at hfind
        rw [startIn, hl, (ih.1 hfind)]
      · intro h hfind
        rw [findHandler, hl] at hfind
        obtain ⟨rest', hstart, hfind', hany⟩ := ih.2 h hfind
        refine ⟨(key, s) :: rest', ?_, ?_, ?_⟩
        · rw [startIn, hl, hstart]
        · rw [findHandler, hl]
          exact hfind'
        · simp only [List.any_cons, Bool.or_eq_true]
          exact Or.inr hany

/-- Claim C5: `session_start_` succeeds exactly when some session's handler
map contains the ui session id.  On success the old sink (when present)
receives exactly one terminal close event — the emissions of the call are
precisely `try_send_close_event` of the old stream, a one-element list
`[(sid, old_sink, Event "close")]` when a stream was attached and empty
otherwise — and the handler afterwards carries the new sink.  When no
session knows the id, the call fails with an error naming both the peer id
and the session id. -/
theorem c5_session_start (reg : Registry) (sid : SID) (id : String)
    (sink : Nat) :
    (∀ h, findHandler reg sid = some h →
      ∃ reg', session_start_ reg sid id sink
          = Except.ok (reg', try_send_close_event sid h.event_stream) ∧
        (∀ kold, h.event_stream = some kold →
          try_send_close_event sid h.event_stream
            = [(sid, kold, EventToUI.Event "close")]) ∧
        findHandler reg' sid = some { h with event_stream := some sink }) ∧
    (findHandler reg sid = none →
      session_start_ reg sid id sink
        = Except.error
            ("No session with peer id " ++ id ++ ", session id: "
              ++ toString sid)) := by
  constructor
  · intro h hfind
    obtain ⟨reg', hstart, hfind', hany⟩ := (startIn_spec sid sink reg).2 h hfind
    refine ⟨reg', ?_, ?_, hfind'⟩
    · rw [session_start_, hstart]
      simp [hany]
    · intro kold hk
      rw [hk]
      rfl
  · intro hfind
    rw [session_start_, (startIn_spec sid sink reg).1 hfind]

/-- Claim C5, witness: a registry with one session (peer "p") holding ui
session 5 with old sink 2 — start succeeds and closes sink 2; the empty
registry — start fails with the error naming peer and session id. -/
theorem c5_session_start_witness :
    (∃ reg', session_start_
        [(("p", ConnType.DEFAULT_CONN),
          ⟨"p", [(5, ⟨some 2, true, VideoRenderer.mk true [] true⟩)]⟩)]
        5 "p" 9
          = Except.ok (reg', try_send_close_event 5 (some 2)) ∧
      (∀ kold, (some 2 : Option Nat) = some kold →
        try_send_close_event 5 (some 2)
          = [(5, kold, EventToUI.Event "close")]) ∧
      findHandler reg' 5
        = some ⟨some 9, true, VideoRenderer.mk true [] true⟩) ∧
    session_start_ ([] : Registry) 5 "p" 9
      = Except.error "No session with peer id p, session id: 5" :=
  ⟨(c5_session_start
      [(("p", ConnType.DEFAULT_CONN),
        ⟨"p", [(5, ⟨some 2, true, VideoRenderer.mk true [] true⟩)]⟩)]
      5 "p" 9).1 ⟨some 2, true, VideoRenderer.mk true [] true⟩ rfl,
   (c5_session_start ([] : Registry) 5 "p" 9).2 rfl⟩

theorem keysOf_eraseA_sublist {α β : Type} [DecidableEq α]
    (m : List (α × β)) (k : α) :
    List.Sublist (keysOf (eraseA m k)) (keysOf m) := by
  induction m with
  | nil => simp
  | cons p rest ih =>
    obtain ⟨a, b⟩ := p
    by_cases hk : a = k
    · rw [eraseA_cons, if_pos hk, keysOf_cons]
      exact List.sublist_cons_self a _
    · rw [eraseA_cons, if_neg hk, keysOf_cons, keysOf_cons]
      exact ih.cons₂ a

theorem insert_session_preserves (reg : Registry) (sid : SID) (ct : ConnType)
    (session : FlutterSession) (hInv : RegInv reg) :
    RegInv (insert_session reg sid ct session) := by
  obtain ⟨hnd, hne⟩ := hInv
  rw [insert_session]
  cases hcase : lookupA reg (session.id, ct) with
  | some s =>
    refine ⟨nodup_keysOf_insertA _ _ _ hnd, fun p hp => ?_⟩
    rcases mem_insertA _ _ _ p hp with h | h
    · exact hne p h
    · rw [h]
      exact insertA_ne_nil _ _ _
  | none =>
    refine ⟨nodup_keysOf_insertA _ _ _ hnd, fun p hp => ?_⟩
    rcases mem_insertA _ _ _ p hp with h | h
    · exact hne p h
    · rw [h]
      exact insertA_ne_nil _ _ _

theorem insert_peer_preserves (reg : Registry) (pid : String) (ct : ConnType)
    (sid : SID) (multi : Bool) (hInv : RegInv reg) :
    RegInv (insert_peer_session_id reg pid ct sid multi).1 := by
  obtain ⟨hnd, hne⟩ := hInv
  rw [insert_peer_session_id]
  cases hcase : lookupA reg (pid, ct) with
  | some s =>
    refine ⟨nodup_keysOf_insertA _ _ _ hnd, fun p hp => ?_⟩
    rcases mem_insertA _ _ _ p hp with h | h
    · exact hne p h
    · rw [h]
      exact insertA_ne_nil _ _ _
  | none => exact ⟨hnd, hne⟩

theorem removeFirst_spec (sid : SID) :
    ∀ reg : Registry, (∀ p ∈ reg, p.2.session_handlers ≠ []) →
      keysOf (removeFirst sid reg).1 = keysOf reg ∧
      ∀ p ∈ (removeFirst sid reg).1,
        p.2.session_handlers = [] → (removeFirst sid reg).2 = some p.1 := by
  intro reg
  induction reg with
  | nil => intro _; exact ⟨rfl, by simp [removeFirst]⟩
  | cons q rest ih =>
    intro hne
    obtain ⟨key, s⟩ := q
    have hner : ∀ p ∈ rest, p.2.session_handlers ≠ [] :=
      fun p hp => hne p (List.mem_cons_of_mem _ hp)
    cases hl : lookupA s.session_handlers sid with
    | some h0 =>
      simp only [removeFirst, hl]
      constructor
      · rw [keysOf_cons, keysOf_cons]
      · intro p hp hempty
        rcases List.mem_cons.mp hp with h | h
        · subst h
          simp only [FlutterSession.session_handlers] at hempty
          rw [hempty]
          rfl
        · exact absurd hempty (hner p h)
    | none =>
      have := ih hner
      simp only [removeFirst, hl]
      constructor
      · rw [keysOf_cons, keysOf_cons, this.1]
      · intro p hp hempty
        rcases List.mem_cons.mp hp with h | h
        · subst h
          exact absurd hempty (hne _ (List.mem_cons_self _ _))
        · exact this.2 p h hempty

theorem remove_preserves (reg : Registry) (sid : SID) (hInv : RegInv reg) :
    RegInv (remove_session_by_session_id reg sid) := by
  obtain ⟨hnd, hne⟩ := hInv
  obtain ⟨hkeys, hempty⟩ := removeFirst_spec sid reg hne
  have hnd1 : (keysOf (removeFirst sid reg).1).Nodup := by
    rw [hkeys]
    exact hnd
  cases hcase : (removeFirst sid reg).2 with
  | none =>
    have hred : remove_session_by_session_id reg sid = (removeFirst sid reg).1 := by
      rw [remove_session_by_session_id, hcase]
    rw [hred]
    refine ⟨hnd1, fun p hp hnil => ?_⟩
    rw [hempty p hp hnil] at hcase
    exact absurd hcase (by simp)
  | some key =>
    have hred : remove_session_by_session_id reg sid
        = eraseA (removeFirst sid reg).1 key := by
      rw [remove_session_by_session_id, hcase]
    rw [hred]
    constructor
    · exact hnd1.sublist (keysOf_eraseA_sublist _ key)
    · intro p hp hnil
      have hmem : p ∈ (removeFirst sid reg).1 := mem_eraseA _ _ _ hp
      have hsome := hempty p hmem hnil
      rw [hcase] at hsome
      injection hsome with hkp
      have hkeynot : key ∉ keysOf (eraseA (removeFirst sid reg).1 key) := by
        rw [← lookupA_eq_none_iff]
        exact lookupA_eraseA_self_of_nodup _ key hnd1
      have hkeymem : p.1 ∈ keysOf (eraseA (removeFirst sid reg).1 key) :=
        List.mem_map.mpr ⟨p, hp, rfl⟩
      rw [← hkp] at hkeymem
      exact hkeynot hkeymem

theorem RegInv_applyOps (ops : List RegOp) :
    ∀ reg : Registry, RegInv reg → RegInv (applyOps reg ops) := by
  induction ops with
  | nil => intro reg h; exact h
  | cons op rest ih =>
    intro reg h
    rw [applyOps, List.foldl_cons]
    refine ih (applyOp reg op) ?_
    cases op with
    | insert sid ct s => exact insert_session_preserves reg sid ct s h
    | insertPeer pid ct sid multi => exact insert_peer_preserves reg pid ct sid multi h
    | removeBySid sid => exact remove_preserves reg sid h

/-- Claim C6: for every sequence of `insert_session`,
`insert_peer_session_id` and `remove_session_by_session_id` operations
applied to the initially empty registry, a `(peer_id, conn_type)` entry
exists if and only if its `session_handlers` map is non-empty: inserting
always registers at least one attachment, and removing the last attachment
removes the registry entry entirely. -/
theorem c6_registry_entry_iff_attachments (ops : List RegOp)
    (key : String × ConnType) :
    (lookupA (applyOps [] ops) key).isSome = true ↔
      ∃ s, lookupA (applyOps [] ops) key = some s ∧ s.session_handlers ≠ [] := by
  constructor
  · intro h
    obtain ⟨s, hs⟩ := Option.isSome_iff_exists.mp h
    have hInv := RegInv_applyOps ops [] ⟨List.nodup_nil, by simp⟩
    exact ⟨s, hs, hInv.2 (key, s) (lookupA_mem _ _ _ hs)⟩
  · intro ⟨s, hs, _⟩
    rw [hs]
    rfl

/-- Claim C6, witness: after inserting a session for peer "p" the entry
exists with one attachment; after removing that attachment the entry is
gone. -/
theorem c6_registry_entry_iff_attachments_witness :
    (∃ s, lookupA (applyOps []
        [RegOp.insert 5 ConnType.DEFAULT_CONN ⟨"p", []⟩])
        ("p", ConnType.DEFAULT_CONN) = some s ∧ s.session_handlers ≠ []) ∧
    (lookupA (applyOps []
        [RegOp.insert 5 ConnType.DEFAULT_CONN ⟨"p", []⟩, RegOp.removeBySid 5])
        ("p", ConnType.DEFAULT_CONN)).isSome = false :=
  ⟨(c6_registry_entry_iff_attachments
      [RegOp.insert 5 ConnType.DEFAULT_CONN ⟨"p", []⟩]
      ("p", ConnType.DEFAULT_CONN)).mp (by decide),
   by decide⟩

/-- Claim C10: `push_event` serializes the given fields plus a `"name"` key
holding the event name into one flat record — a caller-supplied `"name"`
field is silently overwritten while every other collected field is kept —
and delivers that identical serialized string to every session handler
whose event stream is present; handlers with no event stream receive
nothing and cause no error (they are simply skipped). -/
theorem c10_push_event_fanout (hs : Handlers) (name : String)
    (event : List (String × String)) :
    (lookupA (insertA (collectFields event) "name" name) "name" = some name) ∧
    (∀ k v, k ≠ "name" → lookupA (collectFields event) k = some v →
      lookupA (insertA (collectFields event) "name" name) k = some v) ∧
    (∀ p ∈ hs, ∀ k, p.2.event_stream = some k →
      (p.1, k, EventToUI.Event
          (serializeFlat (insertA (collectFields event) "name" name)))
        ∈ push_event hs name event) ∧
    (∀ e ∈ push_event hs name event,
      e.2.2 = EventToUI.Event
          (serializeFlat (insertA (collectFields event) "name" name)) ∧
        ∃ p ∈ hs, p.1 = e.1 ∧ p.2.event_stream = some e.2.1) := by
  refine ⟨lookupA_insertA_self _ _ _, fun k v hk hlook => ?_, ?_, ?_⟩
  · rw [lookupA_insertA_ne _ _ _ _ hk]
    exact hlook
  · intro p hp k hk
    rw [push_event]
    refine List.mem_filterMap.mpr ⟨p, hp, ?_⟩
    rw [hk]
  · intro e he
    rw [push_event] at he
    obtain ⟨p, hp, hpe⟩ := List.mem_filterMap.mp he
    cases hstream : p.2.event_stream with
    | none => rw [hstream] at hpe; exact absurd hpe (by simp)
    | some k =>
      rw [hstream] at hpe
      injection hpe with hpe
      subst hpe
      exact ⟨rfl, p, hp, rfl, hstream⟩

/-- Claim C10, witness: two handlers (one with sink 3, one without a
stream), an event carrying a caller-supplied "name" field — the "name"
field is overwritten, the other field kept, the sink-bearing handler
receives the serialized record and the emission list contains nothing for
the streamless handler. -/
theorem c10_push_event_fanout_witness :
    (lookupA (insertA (collectFields [("name", "bad"), ("a", "b")]) "name" "x")
        "name" = some "x") ∧
    (lookupA (insertA (collectFields [("name", "bad"), ("a", "b")]) "name" "x")
        "a" = some "b") ∧
    ((7, 3, EventToUI.Event
        (serializeFlat (insertA (collectFields [("name", "bad"), ("a", "b")])
          "name" "x")))
      ∈ push_event
          [(7, ⟨some 3, false, VideoRenderer.mk true [] true⟩),
           (8, ⟨none, false, VideoRenderer.mk true [] true⟩)] "x"
          [("name", "bad"), ("a", "b")]) ∧
    (∀ e ∈ push_event
        [(7, ⟨some 3, false, VideoRenderer.mk true [] true⟩),
         (8, ⟨none, false, VideoRenderer.mk true [] true⟩)] "x"
        [("name", "bad"), ("a", "b")], e.1 ≠ 8) := by
  refine ⟨?_, ?_, ?_, ?_⟩
  · exact (c10_push_event_fanout
      [(7, ⟨some 3, false, VideoRenderer.mk true [] true⟩),
       (8, ⟨none, false, VideoRenderer.mk true [] true⟩)] "x"
      [("name", "bad"), ("a", "b")]).1
  · exact (c10_push_event_fanout
      [(7, ⟨some 3, false, VideoRenderer.mk true [] true⟩),
       (8, ⟨none, false, VideoRenderer.mk true [] true⟩)] "x"
      [("name", "bad"), ("a", "b")]).2.1 "a" "b" (by decide) (by decide)
  · exact (c10_push_event_fanout
      [(7, ⟨some 3, false, VideoRenderer.mk true [] true⟩),
       (8, ⟨none, false, VideoRenderer.mk true [] true⟩)] "x"
      [("name", "bad"), ("a", "b")]).2.2.1
      (7, ⟨some 3, false, VideoRenderer.mk true [] true⟩) (by decide) 3 rfl
  · intro e he
    have h8 := ((c10_push_event_fanout
      [(7, ⟨some 3, false, VideoRenderer.mk true [] true⟩),
       (8, ⟨none, false, VideoRenderer.mk true [] true⟩)] "x"
      [("name", "bad"), ("a", "b")]).2.2.2 e he).2
    obtain ⟨p, hp, hpe, hstream⟩ := h8
    intro hcontra
    rw [hcontra] at hpe
    rcases List.mem_cons.mp hp with h | h
    · rw [h] at hpe
      simp at hpe
    · rcases List.mem_cons.mp h with h2 | h2
      · rw [h2] at hstream
        simp at hstream
      · simp at h2

end Rustdesk

